import Mathlib

/-!
Verification of the wallet-session / log / catalog layer of the
`decentralized_bets` browser client.

The embedding follows the in-scope sources:
* `LoggerService` (logger.service.ts): a signal holding a list of
  `{topic, message, timestamp}` records, with `printLog` appending one
  record carrying the current clock reading.
* `WalletService` (wallet.service.ts, logger variant): a catalog of wallet
  adapters sorted by readiness priority, an `activeWallet` signal, an
  Angular `effect` that subscribes a disconnect handler and an error
  handler to the active wallet and unsubscribes them on cleanup, and the
  `connectWallet` / `disconnect` operations.
* `NavbarComponent.connectWallet` and `HomeComponent` / `ApiService`.

Timestamps are modelled as natural clock readings supplied by the
environment; `new Date()` is assumed monotone between calls, which is the
spec's single-threaded clock model.  The wallet adapters themselves are
external library values; per the wallet-library boundary (§6 of the spec)
an adapter's `disconnect` capability emits the adapter's `disconnect`
event to its subscribed handlers, which is how the session's handler
clears `activeWallet`.  Asynchronous operations are serialized by the
event-loop model (§5), so every operation is embedded as an atomic state
transformer whose internal order of capability calls, signal writes and
subscription changes is recorded in an action trace.
-/

namespace Dbets

/-- Readiness states of a wallet adapter (`WalletReadyState` of
`@solana/wallet-adapter-base`). -/
inductive WalletReadyState where
  | Installed
  | Loadable
  | NotDetected
  | Unsupported
deriving DecidableEq, Repr

/-- The priority table of `WalletService`'s constructor:
Installed 0, Loadable 1, NotDetected 2, Unsupported 3. -/
def priority : WalletReadyState → Nat
  | .Installed => 0
  | .Loadable => 1
  | .NotDetected => 2
  | .Unsupported => 3

/-- A wallet adapter handle as seen by the application: a name, an install
URL and a readiness state.  The `id` field models JavaScript object
identity (`===`), which is what `WalletService` compares handles with. -/
structure WalletAdapter where
  id : Nat
  name : String
  url : String
  readyState : WalletReadyState
deriving DecidableEq, Repr

/-- One record of `LoggerService.logs`: `{topic, message, timestamp}`. -/
structure Log where
  topic : String
  message : String
  timestamp : Nat
deriving DecidableEq, Repr

/-- The state of `LoggerService`: the `logs` signal. -/
structure LoggerState where
  logs : List Log
deriving DecidableEq, Repr

/-- The operation `LoggerService.printLog`: appends one record with the current clock
reading to the end of the list (`[...logs, {topic, message, timestamp}]`). -/
def LoggerState.printLog (s : LoggerState) (now : Nat) (topic message : String) :
    LoggerState :=
  ⟨s.logs ++ [⟨topic, message, now⟩]⟩

/-- A sequence of `printLog` calls, each with its clock reading. -/
def runPrintLogs (s : LoggerState) (calls : List (Nat × String × String)) :
    LoggerState :=
  calls.foldl (fun st c => st.printLog c.1 c.2.1 c.2.2) s

/-- The record a single `printLog` call produces. -/
def entryOfCall (c : Nat × String × String) : Log :=
  ⟨c.2.1, c.2.2, c.1⟩

/- ## WalletService session model -/

/-- One recorded action of the session lifecycle: a capability call on an
adapter (`connect()` / `disconnect()`), a subscription change (the
`on` / `off` pairs installed and removed by the constructor's `effect`),
or a write to the `activeWallet` signal. -/
inductive Action where
  | connectCap (w : WalletAdapter)
  | disconnectCap (w : WalletAdapter)
  | subscribeTo (w : WalletAdapter)
  | unsubscribeFrom (w : WalletAdapter)
  | activeSet (w : Option WalletAdapter)
deriving DecidableEq, Repr

/-- The observable state of `WalletService` together with the logger it
injects, a clock, and the trace of lifecycle actions performed so far.
`subscribed` is the wallet on which the `effect`'s disconnect/error
handlers are currently installed (`none` when the last effect run saw no
active wallet). -/
structure SessionState where
  activeWallet : Option WalletAdapter
  subscribed : Option WalletAdapter
  logger : LoggerState
  time : Nat
  trace : List Action
deriving DecidableEq, Repr

/-- Initial state: both signals `null`, empty log. -/
def initSession : SessionState :=
  ⟨none, none, ⟨[]⟩, 0, []⟩

/-- A call `this.logsService.printLog(...)` from inside the wallet service; the
clock advances past the appended record. -/
def SessionState.printLog (s : SessionState) (topic message : String) :
    SessionState :=
  { s with logger := s.logger.printLog s.time topic message, time := s.time + 1 }

/-- A write to the `activeWallet` signal, together with the effect flush it
triggers: the previous run's `onCleanup` removes the handlers from the
previously subscribed wallet, and the new run subscribes the handlers to
the new wallet when there is one. -/
def setActiveWallet (s : SessionState) (w : Option WalletAdapter) : SessionState :=
  { s with
    activeWallet := w
    subscribed := w
    trace := s.trace ++ [Action.activeSet w] ++
      (match s.subscribed with
        | some p => [Action.unsubscribeFrom p]
        | none => []) ++
      (match w with
        | some n => [Action.subscribeTo n]
        | none => []) }

/-- Wallet `w` emits its `disconnect` event.  Only the handler installed by
the effect reacts, and it is bound to the wallet it was subscribed on: it
logs `` `${wallet.name} disconnected ❌` `` and clears `activeWallet`.
If no handler is installed on `w`, nothing observable happens. -/
def emitDisconnectEvent (s : SessionState) (w : WalletAdapter) : SessionState :=
  if s.subscribed = some w then
    setActiveWallet (s.printLog "info" (w.name ++ " disconnected ❌")) none
  else s

/-- Wallet `w` emits its `error` event with payload `e`: the installed
handler logs `` `${wallet.name} error: ${error}` `` and changes no state. -/
def emitErrorEvent (s : SessionState) (w : WalletAdapter) (e : String) : SessionState :=
  if s.subscribed = some w then
    s.printLog "error" (w.name ++ " error: " ++ e)
  else s

/-- Invoking the `disconnect` capability of adapter `w`.  Per the wallet
library boundary (§6): the adapter disconnects and emits its `disconnect`
event to whatever handlers are subscribed on it. -/
def walletDisconnectCap (s : SessionState) (w : WalletAdapter) : SessionState :=
  emitDisconnectEvent { s with trace := s.trace ++ [Action.disconnectCap w] } w

/-- The operation `WalletService.disconnect`: `await this.activeWallet()?.disconnect()` —
a no-op when no wallet is active, otherwise the active adapter's
disconnect capability. -/
def disconnect (s : SessionState) : SessionState :=
  match s.activeWallet with
  | none => s
  | some w => walletDisconnectCap s w

/-- The operation `WalletService.connectWallet(wallet)`.  Here `res` is the outcome of the
adapter's `connect()` capability (external): `.ok` when the promise
resolves, `.error e` when it rejects with `e`.  The `catch` branch only
logs, so the operation is total — no rejection escapes to the caller. -/
def connectWallet (s : SessionState) (w : WalletAdapter) (res : Except String Unit) :
    SessionState :=
  if s.activeWallet = some w then s
  else
    let s1 := if s.activeWallet.isSome then disconnect s else s
    let s2 := { s1 with trace := s1.trace ++ [Action.connectCap w] }
    match res with
    | .ok _ =>
        (setActiveWallet s2 (some w)).printLog "info" (w.name ++ " connected ✅")
    | .error e =>
        s2.printLog "error" (w.name ++ " error: " ++ e)

/-- The operations the environment can perform on a session: a user
connect intent (with the adapter's connect outcome), an explicit
disconnect, or a wallet-emitted `disconnect` / `error` event. -/
inductive Op where
  | connect (w : WalletAdapter) (res : Except String Unit)
  | disconnectCall
  | walletDisc (w : WalletAdapter)
  | walletErr (w : WalletAdapter) (e : String)
deriving Repr

/-- One environment operation applied to the session. -/
def step (s : SessionState) : Op → SessionState
  | .connect w res => connectWallet s w res
  | .disconnectCall => disconnect s
  | .walletDisc w => emitDisconnectEvent s w
  | .walletErr w e => emitErrorEvent s w e

/-- A run of the session under a sequence of operations. -/
def run (s : SessionState) (ops : List Op) : SessionState :=
  ops.foldl step s

/-- The session-state invariant maintained by the effect: the handlers are
installed exactly on the active wallet. -/
def Inv (s : SessionState) : Prop :=
  s.subscribed = s.activeWallet

instance (s : SessionState) : Decidable (Inv s) := by
  unfold Inv; infer_instance

/-- The list of currently active wallets (at most one by construction: the
service stores a single nullable reference). -/
def activeWallets (s : SessionState) : List WalletAdapter :=
  s.activeWallet.toList

/- ## Substring containment (naive scan, used for "message contains the
wallet's name") -/

/-- Whether `pat` occurs contiguously inside `hay`. -/
def listContainsSub (hay pat : List Char) : Bool :=
  (List.range (hay.length + 1)).any (fun i => pat.isPrefixOf (hay.drop i))

/-- Whether `pat` occurs contiguously inside the string `hay`. -/
def strContains (hay pat : String) : Bool :=
  listContainsSub hay.data pat.data

/- ## WalletCatalog ordering -/

/-- The comparator of the constructor's sort,
`(a, b) => priority[a.readyState] - priority[b.readyState]`, rendered as
the "a stays before b" relation of a stable sort (comparator value ≤ 0). -/
def walletLe (a b : WalletAdapter) : Bool :=
  decide (priority a.readyState ≤ priority b.readyState)

/-- The sort `this.all_wallets.sort(comparator)`: JavaScript `Array.prototype.sort`
is a stable sort (ECMAScript 2019), modelled by `List.mergeSort`. -/
def sortWallets (ws : List WalletAdapter) : List WalletAdapter :=
  ws.mergeSort walletLe

/- ## LeagueClient and home view -/

/-- A league record as declared in `api.service.ts` — an uninterpreted
pass-through value. -/
structure League where
  resource : String
  id : Nat
  season_id : Nat
  country_id : Nat
  name : String
  code : String
  image_path : String
  type : String
  updated_at : String
deriving DecidableEq, Repr

/-- The `GET /get_leagues` response body `{ leagues: League[] }`. -/
structure LeaguesResponse where
  leagues : List League
deriving DecidableEq, Repr

/-- The operation `ApiService.get_leagues` returns the HTTP observable unchanged: the
transport outcome (`.ok` body or `.error` failure) is passed through
uninterpreted. -/
def get_leagues (transport : Except String LeaguesResponse) :
    Except String LeaguesResponse :=
  transport

/-- The state of `HomeComponent`: the `leagues` field (initialized to
`[]`) and the injected logger. -/
structure HomeState where
  leagues : List League
  logger : LoggerState
deriving DecidableEq, Repr

/-- The state of `HomeComponent` before the subscription fires: empty league list. -/
def initHomeState : HomeState :=
  ⟨[], ⟨[]⟩⟩

/-- The `subscribe` callback of `HomeComponent`'s constructor: on a next
value it stores `data.leagues` and logs success; no error callback is
installed, so a failed outcome leaves the state untouched. -/
def homeSubscribe (s : HomeState) (now : Nat) (r : Except String LeaguesResponse) :
    HomeState :=
  match r with
  | .ok data =>
      ⟨data.leagues, s.logger.printLog now "success" "Leagues fetched successfully ✅"⟩
  | .error _ => s

/- ## NavbarComponent -/

/-- The outward action `NavbarComponent.connectWallet` performs: nothing,
a call into `WalletService.connectWallet`, or `window.open` on the
wallet's install URL. -/
inductive NavAction where
  | nothing
  | connectTo (w : WalletAdapter)
  | openUrl (u : String)
deriving DecidableEq, Repr

/-- The action `NavbarComponent.connectWallet(name)`: look the wallet up by name in
the catalog; bail out when absent; dispatch to the session only when the
wallet is `Installed`, otherwise open its install URL. -/
def navbarConnectWallet (wallets : List WalletAdapter) (name : String) : NavAction :=
  match wallets.find? (fun x => x.name == name) with
  | none => NavAction.nothing
  | some w =>
      if w.readyState = WalletReadyState.Installed then NavAction.connectTo w
      else NavAction.openUrl w.url

/- ## Concrete witness data -/

/-- A concrete installed wallet handle. -/
def wA : WalletAdapter :=
  ⟨0, "Alice", "https://alice.example", .Installed⟩

/-- A second concrete installed wallet handle. -/
def wB : WalletAdapter :=
  ⟨1, "Bob", "https://bob.example", .Installed⟩

/-- A concrete wallet handle that is only loadable, not installed. -/
def wCarol : WalletAdapter :=
  ⟨2, "Carol", "https://carol.example", .Loadable⟩

/-- A session in which `wA` has been connected successfully. -/
def sA : SessionState :=
  step initSession (.connect wA (.ok ()))

/-- Catalog instance of the spec's ordering test: readiness Unsupported. -/
def cU : WalletAdapter := ⟨10, "WU", "uU", .Unsupported⟩

/-- Catalog instance of the spec's ordering test: first Installed. -/
def cI1 : WalletAdapter := ⟨11, "WI1", "uI1", .Installed⟩

/-- Catalog instance of the spec's ordering test: readiness Loadable. -/
def cL : WalletAdapter := ⟨12, "WL", "uL", .Loadable⟩

/-- Catalog instance of the spec's ordering test: second Installed. -/
def cI2 : WalletAdapter := ⟨13, "WI2", "uI2", .Installed⟩

/- ## Helper lemmas -/

theorem runPrintLogs_logs (s : LoggerState) (calls : List (Nat × String × String)) :
    (runPrintLogs s calls).logs = s.logs ++ calls.map entryOfCall := by
  induction calls generalizing s with
  | nil => simp [runPrintLogs]
  | cons c cs ih =>
      simp only [runPrintLogs, List.foldl_cons, List.map_cons] at *
      rw [ih]
      simp [LoggerState.printLog, entryOfCall]

theorem strContains_append (n m : String) : strContains (n ++ m) n = true := by
  simp only [strContains, String.data_append, listContainsSub, List.any_eq_true]
  refine ⟨0, ?_, ?_⟩
  · simp
  · simp [List.isPrefixOf_iff_prefix]

theorem walletLe_trans (a b c : WalletAdapter) (hab : walletLe a b)
    (hbc : walletLe b c) : walletLe a c := by
  simp only [walletLe, decide_eq_true_eq] at *
  omega

theorem walletLe_total (a b : WalletAdapter) : walletLe a b || walletLe b a := by
  rcases Nat.le_total (priority a.readyState) (priority b.readyState) with h | h
  · simp [walletLe, h]
  · simp [walletLe, h]

theorem inv_initSession : Inv initSession := rfl

theorem inv_setActiveWallet (s : SessionState) (w : Option WalletAdapter) :
    Inv (setActiveWallet s w) := rfl

theorem inv_printLog (s : SessionState) (t m : String) (h : Inv s) :
    Inv (s.printLog t m) := h

theorem inv_disconnect (s : SessionState) (h : Inv s) : Inv (disconnect s) := by
  simp only [disconnect]
  split
  · exact h
  · simp only [walletDisconnectCap, emitDisconnectEvent]
    split
    · exact inv_setActiveWallet _ _
    · exact h

theorem inv_step (s : SessionState) (op : Op) (h : Inv s) : Inv (step s op) := by
  cases op with
  | connect w res =>
      simp only [step, connectWallet]
      split
      · exact h
      · cases res with
        | ok u =>
            exact inv_printLog _ _ _ (inv_setActiveWallet _ _)
        | error e =>
            have h1 : Inv (if s.activeWallet.isSome then disconnect s else s) := by
              split
              · exact inv_disconnect s h
              · exact h
            exact inv_printLog _ _ _ h1
  | disconnectCall =>
      exact inv_disconnect s h
  | walletDisc w =>
      simp only [step, emitDisconnectEvent]
      split
      · exact inv_setActiveWallet _ _
      · exact h
  | walletErr w e =>
      simp only [step, emitErrorEvent]
      split
      · exact inv_printLog _ _ _ h
      · exact h

theorem inv_run (ops : List Op) (s : SessionState) (h : Inv s) : Inv (run s ops) := by
  induction ops generalizing s with
  | nil => exact h
  | cons op ops ih => exact ih _ (inv_step s op h)

theorem disconnect_none (s : SessionState) (h0 : s.activeWallet = none) :
    disconnect s = s := by
  simp [disconnect, h0]

theorem disconnect_some (s : SessionState) (w : WalletAdapter)
    (hInv : Inv s) (hw : s.activeWallet = some w) :
    disconnect s =
      ⟨none, none,
        ⟨s.logger.logs ++ [⟨"info", w.name ++ " disconnected ❌", s.time⟩]⟩,
        s.time + 1,
        s.trace ++ [Action.disconnectCap w, Action.activeSet none,
          Action.unsubscribeFrom w]⟩ := by
  have hs : s.subscribed = some w := by rw [Inv] at hInv; rw [hInv, hw]
  simp [disconnect, hw, walletDisconnectCap, emitDisconnectEvent, hs,
    SessionState.printLog, LoggerState.printLog, setActiveWallet]

theorem connectWallet_ok_none (s : SessionState) (w : WalletAdapter) (u : Unit)
    (hInv : Inv s) (h0 : s.activeWallet = none) :
    connectWallet s w (.ok u) =
      ⟨some w, some w,
        ⟨s.logger.logs ++ [⟨"info", w.name ++ " connected ✅", s.time⟩]⟩,
        s.time + 1,
        s.trace ++ [Action.connectCap w, Action.activeSet (some w),
          Action.subscribeTo w]⟩ := by
  have hs : s.subscribed = none := by rw [Inv] at hInv; rw [hInv, h0]
  simp [connectWallet, h0, setActiveWallet, hs,
    SessionState.printLog, LoggerState.printLog]

theorem connectWallet_ok_some (s : SessionState) (a w : WalletAdapter) (u : Unit)
    (hInv : Inv s) (ha : s.activeWallet = some a) (hne : a ≠ w) :
    connectWallet s w (.ok u) =
      ⟨some w, some w,
        ⟨s.logger.logs ++ [⟨"info", a.name ++ " disconnected ❌", s.time⟩,
          ⟨"info", w.name ++ " connected ✅", s.time + 1⟩]⟩,
        s.time + 2,
        s.trace ++ [Action.disconnectCap a, Action.activeSet none,
          Action.unsubscribeFrom a, Action.connectCap w,
          Action.activeSet (some w), Action.subscribeTo w]⟩ := by
  have hnw : ¬ s.activeWallet = some w := by
    rw [ha]; intro hc; exact hne (Option.some.injEq a w ▸ hc)
  have hsome : s.activeWallet.isSome = true := by rw [ha]; rfl
  rw [connectWallet]
  rw [if_neg hnw]
  simp only [hsome, if_pos, if_true]
  rw [disconnect_some s a hInv ha]
  simp [setActiveWallet, SessionState.printLog, LoggerState.printLog]

theorem connectWallet_err_none (s : SessionState) (w : WalletAdapter) (e : String)
    (h0 : s.activeWallet = none) :
    connectWallet s w (.error e) =
      ⟨none, s.subscribed,
        ⟨s.logger.logs ++ [⟨"error", w.name ++ " error: " ++ e, s.time⟩]⟩,
        s.time + 1,
        s.trace ++ [Action.connectCap w]⟩ := by
  simp [connectWallet, h0, SessionState.printLog, LoggerState.printLog]

theorem connectWallet_err_some (s : SessionState) (a : WalletAdapter)
    (w : WalletAdapter) (e : String)
    (hInv : Inv s) (ha : s.activeWallet = some a) (hne : a ≠ w) :
    connectWallet s w (.error e) =
      ⟨none, none,
        ⟨s.logger.logs ++ [⟨"info", a.name ++ " disconnected ❌", s.time⟩,
          ⟨"error", w.name ++ " error: " ++ e, s.time + 1⟩]⟩,
        s.time + 2,
        s.trace ++ [Action.disconnectCap a, Action.activeSet none,
          Action.unsubscribeFrom a, Action.connectCap w]⟩ := by
  have hnw : ¬ s.activeWallet = some w := by
    rw [ha]; intro hc; exact hne (Option.some.injEq a w ▸ hc)
  have hsome : s.activeWallet.isSome = true := by rw [ha]; rfl
  rw [connectWallet]
  rw [if_neg hnw]
  simp only [hsome, if_pos, if_true]
  rw [disconnect_some s a hInv ha]
  simp [SessionState.printLog, LoggerState.printLog]

theorem connectWallet_active (s : SessionState) (w : WalletAdapter)
    (res : Except String Unit) (hw : s.activeWallet = some w) :
    connectWallet s w res = s := by
  simp [connectWallet, hw]

/- ## Claims -/

/-- C2: `disconnect()` with no active wallet is a no-op (state and log
unchanged); with an active wallet `w` it invokes `w`'s disconnect
capability, unsubscribes the session's handlers from `w`, and ends with
`activeWallet = null` (the info record of the adapter's `disconnect`
event is appended along the way).  The operation is atomic between the
awaited suspension points (§5), so the post-state is the observed
outcome. -/
theorem disconnect_spec (s : SessionState) (w : WalletAdapter) (hInv : Inv s) :
    (s.activeWallet = none → disconnect s = s) ∧
    (s.activeWallet = some w →
      (disconnect s).activeWallet = none ∧
      (disconnect s).subscribed = none ∧
      (disconnect s).trace = s.trace ++ [Action.disconnectCap w,
        Action.activeSet none, Action.unsubscribeFrom w] ∧
      (disconnect s).logger.logs =
        s.logger.logs ++ [⟨"info", w.name ++ " disconnected ❌", s.time⟩]) := by
  constructor
  · intro h0
    exact disconnect_none s h0
  · intro hw
    rw [disconnect_some s w hInv hw]
    exact ⟨rfl, rfl, rfl, rfl⟩

/-- Witness for C2 at the concrete session in which `wA` is active. -/
theorem disconnect_spec_witness :
    (sA.activeWallet = none → disconnect sA = sA) ∧
    (sA.activeWallet = some wA →
      (disconnect sA).activeWallet = none ∧
      (disconnect sA).subscribed = none ∧
      (disconnect sA).trace = sA.trace ++ [Action.disconnectCap wA,
        Action.activeSet none, Action.unsubscribeFrom wA] ∧
      (disconnect sA).logger.logs =
        sA.logger.logs ++ [⟨"info", wA.name ++ " disconnected ❌", sA.time⟩]) :=
  disconnect_spec sA wA (by decide)

/-- C3: while `w` is the active wallet its `disconnect` event clears
`activeWallet` and appends exactly one info record, and its `error` event
appends exactly one error record leaving `activeWallet` unchanged; an
event from a wallet that is not active has no observable effect; and in
every reachable session state the handlers are subscribed exactly on the
active wallet (no handler remains on a wallet that ceased to be
active). -/
theorem wallet_event_spec (s : SessionState) (w : WalletAdapter) (e : String)
    (ops : List Op) (hInv : Inv s) :
    (s.activeWallet = some w →
      (emitDisconnectEvent s w).activeWallet = none ∧
      (emitDisconnectEvent s w).logger.logs =
        s.logger.logs ++ [⟨"info", w.name ++ " disconnected ❌", s.time⟩] ∧
      (emitErrorEvent s w e).activeWallet = s.activeWallet ∧
      (emitErrorEvent s w e).logger.logs =
        s.logger.logs ++ [⟨"error", w.name ++ " error: " ++ e, s.time⟩]) ∧
    (s.activeWallet ≠ some w →
      emitDisconnectEvent s w = s ∧ emitErrorEvent s w e = s) ∧
    (run initSession ops).subscribed = (run initSession ops).activeWallet := by
  refine ⟨?_, ?_, ?_⟩
  · intro hw
    have hs : s.subscribed = some w := by rw [Inv] at hInv; rw [hInv, hw]
    refine ⟨?_, ?_, ?_, ?_⟩ <;>
      simp [emitDisconnectEvent, emitErrorEvent, hs, setActiveWallet,
        SessionState.printLog, LoggerState.printLog]
  · intro hw
    have hs : s.subscribed ≠ some w := by rw [Inv] at hInv; rw [hInv]; exact hw
    constructor <;> simp [emitDisconnectEvent, emitErrorEvent, hs]
  · exact inv_run ops initSession inv_initSession

/-- Witness for C3: `wA` active, `wB` not active, one-step reachable run. -/
theorem wallet_event_spec_witness :
    (sA.activeWallet = some wA →
      (emitDisconnectEvent sA wA).activeWallet = none ∧
      (emitDisconnectEvent sA wA).logger.logs =
        sA.logger.logs ++ [⟨"info", wA.name ++ " disconnected ❌", sA.time⟩] ∧
      (emitErrorEvent sA wA "boom").activeWallet = sA.activeWallet ∧
      (emitErrorEvent sA wA "boom").logger.logs =
        sA.logger.logs ++ [⟨"error", wA.name ++ " error: " ++ "boom", sA.time⟩]) ∧
    (sA.activeWallet ≠ some wB →
      emitDisconnectEvent sA wB = sA ∧ emitErrorEvent sA wB "boom" = sA) ∧
    (run initSession [.connect wA (.ok ())]).subscribed =
      (run initSession [.connect wA (.ok ())]).activeWallet := by
  have h1 := wallet_event_spec sA wA "boom" [.connect wA (.ok ())] (by decide)
  have h2 := wallet_event_spec sA wB "boom" [.connect wA (.ok ())] (by decide)
  exact ⟨h1.1, h2.2.1, h1.2.2⟩

/-- C6: `connect(h)` when `h` is already the active wallet is a complete
no-op: the adapter's connect capability is not invoked, nothing is
logged, no subscription changes, the whole state (trace included) is
unchanged — for either outcome of the capability, which is never
consulted. -/
theorem connect_already_active_noop (s : SessionState) (w : WalletAdapter)
    (res : Except String Unit) (hw : s.activeWallet = some w) :
    connectWallet s w res = s :=
  connectWallet_active s w res hw

/-- Witness for C6: reconnecting the already-active `wA` changes nothing. -/
theorem connect_already_active_noop_witness :
    connectWallet sA wA (.error "rejected") = sA :=
  connect_already_active_noop sA wA (.error "rejected") (by decide)

/-- C8: the log store is append-only and order-preserving: a sequence of
`printLog` calls appends exactly those records in call order after the
pre-existing ones (so nothing is removed or mutated), starting from the
empty log it yields exactly the called entries, and when the clock
readings of successive calls are non-decreasing (the single-threaded
monotone clock of §5) so are the stored timestamps. -/
theorem log_append_only (s : LoggerState) (calls : List (Nat × String × String))
    (hmono : List.Chain' (fun a b => a ≤ b) (calls.map (fun c => c.1))) :
    (runPrintLogs s calls).logs = s.logs ++ calls.map entryOfCall ∧
    (runPrintLogs ⟨[]⟩ calls).logs = calls.map entryOfCall ∧
    List.Chain' (fun a b => a ≤ b)
      ((runPrintLogs ⟨[]⟩ calls).logs.map (fun l => l.timestamp)) := by
  refine ⟨runPrintLogs_logs s calls, ?_, ?_⟩
  · rw [runPrintLogs_logs]
    simp
  · rw [runPrintLogs_logs]
    have hmap : ((⟨[]⟩ : LoggerState).logs ++ calls.map entryOfCall).map
        (fun l => l.timestamp) = calls.map (fun c => c.1) := by
      simp [entryOfCall, Function.comp]
    rw [hmap]
    exact hmono

/-- Witness for C8 at two concrete calls with non-decreasing clock. -/
theorem log_append_only_witness :
    (runPrintLogs ⟨[⟨"t", "m", 0⟩]⟩ [(1, "info", "a"), (2, "error", "b")]).logs =
      [⟨"t", "m", 0⟩] ++ [(1, "info", "a"), (2, "error", "b")].map entryOfCall ∧
    (runPrintLogs ⟨[]⟩ [(1, "info", "a"), (2, "error", "b")]).logs =
      [(1, "info", "a"), (2, "error", "b")].map entryOfCall ∧
    List.Chain' (fun a b => a ≤ b)
      ((runPrintLogs ⟨[]⟩ [(1, "info", "a"), (2, "error", "b")]).logs.map
        (fun l => l.timestamp)) :=
  log_append_only ⟨[⟨"t", "m", 0⟩]⟩ [(1, "info", "a"), (2, "error", "b")]
    (by simp [List.chain'_cons])

/-- C9: `fetchLeagues` passes the backend payload through uninterpreted —
an `{leagues:[...]}` response is delivered field-for-field and stored as
the displayed list; a transport failure surfaces as a failed outcome
(`.error`), and since the view installs no error handler the displayed
league list stays at its initial empty value. -/
theorem fetch_leagues_spec (resp : LeaguesResponse) (e : String) (now : Nat) :
    get_leagues (.ok resp) = .ok resp ∧
    (homeSubscribe initHomeState now (get_leagues (.ok resp))).leagues = resp.leagues ∧
    get_leagues (.error e) = .error e ∧
    homeSubscribe initHomeState now (get_leagues (.error e)) = initHomeState ∧
    (homeSubscribe initHomeState now (get_leagues (.error e))).leagues = [] :=
  ⟨rfl, rfl, rfl, rfl, rfl⟩

/-- C10: the navbar's `connectWallet(name)` is total and guarded: no
catalog match means no action; a matching wallet that is not `Installed`
only opens its install URL; and the session's connect operation is only
ever dispatched on a wallet of the catalog whose readiness is
`Installed`. -/
theorem navbar_connect_guard (wallets : List WalletAdapter) (name : String)
    (w : WalletAdapter) :
    (wallets.find? (fun x => x.name == name) = none →
      navbarConnectWallet wallets name = NavAction.nothing) ∧
    (wallets.find? (fun x => x.name == name) = some w →
      w.readyState ≠ WalletReadyState.Installed →
      navbarConnectWallet wallets name = NavAction.openUrl w.url) ∧
    (navbarConnectWallet wallets name = NavAction.connectTo w →
      w.readyState = WalletReadyState.Installed ∧ w ∈ wallets) := by
  refine ⟨?_, ?_, ?_⟩
  · intro h
    simp [navbarConnectWallet, h]
  · intro h hr
    simp [navbarConnectWallet, h, hr]
  · intro h
    cases hf : wallets.find? (fun x => x.name == name) with
    | none => simp [navbarConnectWallet, hf] at h
    | some v =>
        simp only [navbarConnectWallet, hf] at h
        by_cases hr : v.readyState = WalletReadyState.Installed
        · rw [if_pos hr] at h
          cases h
          exact ⟨hr, List.mem_of_find?_eq_some hf⟩
        · rw [if_neg hr] at h
          exact absurd h (by simp)

/-- Witness for C10 on a two-wallet catalog, exercising the
not-installed branch. -/
theorem navbar_connect_guard_witness :
    ([wA, wCarol].find? (fun x => x.name == "Carol") = none →
      navbarConnectWallet [wA, wCarol] "Carol" = NavAction.nothing) ∧
    ([wA, wCarol].find? (fun x => x.name == "Carol") = some wCarol →
      wCarol.readyState ≠ WalletReadyState.Installed →
      navbarConnectWallet [wA, wCarol] "Carol" = NavAction.openUrl wCarol.url) ∧
    (navbarConnectWallet [wA, wCarol] "Carol" = NavAction.connectTo wCarol →
      wCarol.readyState = WalletReadyState.Installed ∧ wCarol ∈ [wA, wCarol]) :=
  navbar_connect_guard [wA, wCarol] "Carol" wCarol

/-- C1: at most one wallet is active at any observed instant (the session
holds a single nullable reference), and whenever an operation changes the
active wallet from `a` to a different `b`, the action trace of that
operation invokes `disconnect()` on `a` and clears the active reference
before `b` becomes active — a direct swap `Connected(a)` to
`Connected(b)` without an intervening disconnect never occurs.  The
sequencing inside the single atomic operation models the awaited
completion of the preliminary `disconnect()` (§5). -/
theorem active_unique_switch (s : SessionState) (op : Op) (a b : WalletAdapter)
    (hInv : Inv s) (ha : s.activeWallet = some a)
    (hb : (step s op).activeWallet = some b) (hab : a ≠ b) :
    (activeWallets (step s op)).length ≤ 1 ∧
    List.Sublist [Action.disconnectCap a, Action.activeSet none,
      Action.activeSet (some b)] ((step s op).trace.drop s.trace.length) := by
  constructor
  · cases h : (step s op).activeWallet <;> simp [activeWallets, h]
  · cases op with
    | connect w res =>
        by_cases hw : s.activeWallet = some w
        · rw [step, connectWallet_active s w res hw] at hb
          rw [ha] at hb
          exact absurd (Option.some.inj hb) hab
        · have hne : a ≠ w := fun h => hw (h ▸ ha)
          cases res with
          | ok u =>
              have hcw := connectWallet_ok_some s a w u hInv ha hne
              simp only [step] at hb ⊢
              rw [hcw] at hb ⊢
              have hwb : w = b := Option.some.inj hb
              subst hwb
              simp only [List.drop_left]
              exact List.Sublist.cons₂ _ (List.Sublist.cons₂ _
                (List.Sublist.cons _ (List.Sublist.cons _
                  (List.Sublist.cons₂ _ (List.nil_sublist _)))))
          | error e =>
              have hcw := connectWallet_err_some s a w e hInv ha hne
              simp only [step] at hb
              rw [hcw] at hb
              simp at hb
    | disconnectCall =>
        simp only [step] at hb
        rw [disconnect_some s a hInv ha] at hb
        simp at hb
    | walletDisc w =>
        simp only [step, emitDisconnectEvent] at hb
        split at hb
        · simp [setActiveWallet] at hb
        · rw [ha] at hb
          exact absurd (Option.some.inj hb) hab
    | walletErr w e =>
        simp only [step, emitErrorEvent] at hb
        split at hb
        · simp only [SessionState.printLog] at hb
          rw [ha] at hb
          exact absurd (Option.some.inj hb) hab
        · rw [ha] at hb
          exact absurd (Option.some.inj hb) hab

/-- Witness for C1: switching from `wA` to `wB` by a successful connect. -/
theorem active_unique_switch_witness :
    (activeWallets (step sA (.connect wB (.ok ())))).length ≤ 1 ∧
    List.Sublist [Action.disconnectCap wA, Action.activeSet none,
      Action.activeSet (some wB)]
      ((step sA (.connect wB (.ok ()))).trace.drop sA.trace.length) :=
  active_unique_switch sA (.connect wB (.ok ())) wA wB
    (by decide) (by decide) (by decide) (by decide)

/-- C4 counterexample: with `wA` active, `connect(wB)` whose connect
capability rejects does NOT leave `activeWallet` as it was before the
call — the preliminary `disconnect()` has already cleared it, so the
claim "leaves activeWallet exactly as it was before the call" is false at
this input. -/
theorem connect_failure_cex :
    ¬ (step sA (Op.connect wB (.error "boom"))).activeWallet = sA.activeWallet := by
  decide

/-- C4 (amended): for a wallet `w` not already active whose connect
capability fails, `connect(w)` ends with `activeWallet = null` — that is
unchanged when no wallet was active, while a previously active different
wallet has already been disconnected by the preliminary `disconnect()`
(which appends its own info record) — the failure branch appends exactly
one error LogEntry, and the failure is swallowed by the `catch` (the
operation is a total state transformer; nothing is re-raised to the
caller). -/
theorem connect_failure_spec (s : SessionState) (w : WalletAdapter) (e : String)
    (hInv : Inv s) (hnw : s.activeWallet ≠ some w) :
    (connectWallet s w (.error e)).activeWallet = none ∧
    (s.activeWallet = none →
      (connectWallet s w (.error e)).logger.logs =
        s.logger.logs ++ [⟨"error", w.name ++ " error: " ++ e, s.time⟩]) ∧
    (connectWallet s w (.error e)).logger.logs.countP
        (fun l => l.topic == "error") =
      s.logger.logs.countP (fun l => l.topic == "error") + 1 := by
  have hinfo : (("info" : String) == "error") = false := by decide
  have herr : (("error" : String) == "error") = true := by decide
  cases hcase : s.activeWallet with
  | none =>
      have hcw := connectWallet_err_none s w e hcase
      rw [hcw]
      refine ⟨rfl, fun _ => rfl, ?_⟩
      simp [List.countP_append, List.countP_cons, herr]
  | some a =>
      have hne : a ≠ w := fun h => hnw (h ▸ hcase)
      have hcw := connectWallet_err_some s a w e hInv hcase hne
      rw [hcw]
      refine ⟨rfl, ?_, ?_⟩
      · intro h0
        exact absurd h0 (by simp)
      · simp [List.countP_append, List.countP_cons, herr, hinfo]

/-- Witness for C4 (amended): failing `connect(wB)` while `wA` is active. -/
theorem connect_failure_spec_witness :
    (connectWallet sA wB (.error "boom")).activeWallet = none ∧
    (sA.activeWallet = none →
      (connectWallet sA wB (.error "boom")).logger.logs =
        sA.logger.logs ++ [⟨"error", wB.name ++ " error: " ++ "boom", sA.time⟩]) ∧
    (connectWallet sA wB (.error "boom")).logger.logs.countP
        (fun l => l.topic == "error") =
      sA.logger.logs.countP (fun l => l.topic == "error") + 1 :=
  connect_failure_spec sA wB "boom" (by decide) (by decide)

/-- C5: for a wallet `w` not currently active whose connect capability
succeeds, `connect(w)` sets `activeWallet = w`, subscribes the handlers
to `w`'s `disconnect` and `error` events (in that order after the
capability call), and appends exactly one info LogEntry whose message
contains `w`'s name.  The side condition `hname` rules out one wallet's
name occurring inside the disconnect message of the previously active
wallet, which holds for the distinct names of the fixed catalog. -/
theorem connect_success_spec (s : SessionState) (w : WalletAdapter) (u : Unit)
    (hInv : Inv s) (hnw : s.activeWallet ≠ some w)
    (hname : ∀ a ∈ s.activeWallet.toList,
      strContains (a.name ++ " disconnected ❌") w.name = false) :
    (connectWallet s w (.ok u)).activeWallet = some w ∧
    (connectWallet s w (.ok u)).subscribed = some w ∧
    List.Sublist [Action.connectCap w, Action.activeSet (some w),
      Action.subscribeTo w]
      ((connectWallet s w (.ok u)).trace.drop s.trace.length) ∧
    ((connectWallet s w (.ok u)).logger.logs.drop s.logger.logs.length).countP
      (fun l => (l.topic == "info") && strContains l.message w.name) = 1 := by
  have hc : strContains (w.name ++ " connected ✅") w.name = true :=
    strContains_append w.name " connected ✅"
  have hii : (("info" : String) == "info") = true := by decide
  cases hcase : s.activeWallet with
  | none =>
      have hcw := connectWallet_ok_none s w u hInv hcase
      rw [hcw]
      refine ⟨rfl, rfl, ?_, ?_⟩
      · simp only [List.drop_left]
        exact List.Sublist.refl _
      · simp [List.drop_left, List.countP_cons, hc, hii]
  | some a =>
      have hne : a ≠ w := fun h => hnw (h ▸ hcase)
      have hna : strContains (a.name ++ " disconnected ❌") w.name = false :=
        hname a (by rw [hcase]; simp)
      have hcw := connectWallet_ok_some s a w u hInv hcase hne
      rw [hcw]
      refine ⟨rfl, rfl, ?_, ?_⟩
      · simp only [List.drop_left]
        exact List.Sublist.cons _ (List.Sublist.cons _
          (List.Sublist.cons _ (List.Sublist.refl _)))
      · simp [List.drop_left, List.countP_cons, hc, hii, hna]

/-- Witness for C5: successful `connect(wB)` while `wA` is active. -/
theorem connect_success_spec_witness :
    (connectWallet sA wB (.ok ())).activeWallet = some wB ∧
    (connectWallet sA wB (.ok ())).subscribed = some wB ∧
    List.Sublist [Action.connectCap wB, Action.activeSet (some wB),
      Action.subscribeTo wB]
      ((connectWallet sA wB (.ok ())).trace.drop sA.trace.length) ∧
    ((connectWallet sA wB (.ok ())).logger.logs.drop sA.logger.logs.length).countP
      (fun l => (l.topic == "info") && strContains l.message wB.name) = 1 :=
  connect_success_spec sA wB () (by decide) (by decide) (by decide)

/-- C7: the startup catalog is the declared wallet list stably sorted by
availability priority ascending (Installed 0, Loadable 1, NotDetected 2,
Unsupported 3): the result is sorted by priority, is a permutation of the
declaration list, ties preserve declaration order (any correctly ordered
pair of declared handles keeps its relative order), and on readiness
values [Unsupported, Installed, Loadable, Installed] the two Installed
handles come first in declaration order, then Loadable, then
Unsupported. -/
theorem catalog_sort_spec (ws : List WalletAdapter) (a b : WalletAdapter)
    (hab : walletLe a b = true) (hsub : List.Sublist [a, b] ws) :
    List.Pairwise (fun x y => walletLe x y = true) (sortWallets ws) ∧
    List.Perm (sortWallets ws) ws ∧
    List.Sublist [a, b] (sortWallets ws) ∧
    sortWallets [cU, cI1, cL, cI2] = [cI1, cI2, cL, cU] := by
  refine ⟨?_, ?_, ?_, ?_⟩
  · exact List.sorted_mergeSort walletLe_trans walletLe_total ws
  · exact List.mergeSort_perm ws walletLe
  · exact List.pair_sublist_mergeSort walletLe_trans walletLe_total hab hsub
  · simp [sortWallets, List.mergeSort, List.merge, cU, cI1, cL, cI2,
      walletLe, priority]

/-- Witness for C7: the declared pair `(cI1, cI2)` of equal priority keeps
its order through the sort of the four-element catalog. -/
theorem catalog_sort_spec_witness :
    List.Pairwise (fun x y => walletLe x y = true)
      (sortWallets [cU, cI1, cL, cI2]) ∧
    List.Perm (sortWallets [cU, cI1, cL, cI2]) [cU, cI1, cL, cI2] ∧
    List.Sublist [cI1, cI2] (sortWallets [cU, cI1, cL, cI2]) ∧
    sortWallets [cU, cI1, cL, cI2] = [cI1, cI2, cL, cU] :=
  catalog_sort_spec [cU, cI1, cL, cI2] cI1 cI2 (by decide) (by decide)

end Dbets
